import Mathlib

/-!
Verification of the Spell-book repository: a shallow embedding of the
record store (server/storage), the HTTP route handlers (server/app.js and
server/index.js), the client store (src/state.js), the sync orchestrator
(src/main.js) and the client API wrapper (src/api.js), together with
theorems settling the specification claims.
-/

namespace Spellbook

/-! ### JavaScript value model

Request bodies arrive as parsed JSON, so a field can hold a value of any
JSON type.  `JsVal` models those values; numbers are modelled as `Int`
(the code only ever manipulates integral numbers). -/

inductive JsVal where
  | str (s : String)
  | num (n : Int)
  | boolean (b : Bool)
  | nullv
  | arr (elems : List JsVal)
  | obj (fields : List (String × JsVal))
deriving Repr

instance {ε α : Type} [DecidableEq ε] [DecidableEq α] : DecidableEq (Except ε α) :=
  fun a b =>
    match a, b with
    | .ok x, .ok y =>
        if h : x = y then .isTrue (by rw [h]) else .isFalse (by intro hh; cases hh; exact h rfl)
    | .error x, .error y =>
        if h : x = y then .isTrue (by rw [h]) else .isFalse (by intro hh; cases hh; exact h rfl)
    | .ok _, .error _ => .isFalse (by intro hh; cases hh)
    | .error _, .ok _ => .isFalse (by intro hh; cases hh)

/-- Model of the JavaScript `String.prototype.trim`: strip leading and
trailing whitespace (defined over the character list so that it
evaluates by kernel reduction). -/
def jsTrim (s : String) : String :=
  String.mk (((s.data.dropWhile Char.isWhitespace).reverse.dropWhile Char.isWhitespace).reverse)

/-- Model of the JavaScript `String.prototype.toLowerCase`. -/
def jsToLower (s : String) : String :=
  String.mk (s.data.map Char.toLower)

/-- JavaScript truthiness of a JSON value (`undefined` is represented by
`Option.none` at use sites). -/
def jsTruthy : JsVal → Bool
  | .str s => s != ""
  | .num n => n != 0
  | .boolean b => b
  | .nullv => false
  | .arr _ => true
  | .obj _ => true

/-- Extract the string payload of a value already known to be a string
(`""` on the unreachable non-string shapes). -/
def asStr : JsVal → String
  | .str s => s
  | _ => ""

/-- Extract the numeric payload of a value already known to be a number. -/
def asNum : JsVal → Int
  | .num n => n
  | _ => 0

/-- Extract a string array payload. -/
def asStrList : JsVal → List String
  | .arr es => es.map asStr
  | _ => []

/-- Model of the JavaScript `x || d` defaulting idiom on a possibly
missing field. -/
def jsOr (v : Option JsVal) (d : JsVal) : JsVal :=
  match v with
  | some w => if jsTruthy w then w else d
  | none => d

/-! ### Validation (validateSpell in server/app.js and server/index.js) -/

def ELEMENTS : List String := ["Arcane", "Fire", "Frost", "Storm", "Nature"]

def RARITIES : List String := ["Common", "Uncommon", "Rare", "Mythic"]

/-- A request body for create/update: each spell field is either absent
(`none`, JavaScript `undefined`) or present with an arbitrary JSON value. -/
structure SpellBody where
  name : Option JsVal
  element : Option JsVal
  rarity : Option JsVal
  manaCost : Option JsVal
  cooldownSec : Option JsVal
  description : Option JsVal
  ingredients : Option JsVal

/-- The empty request body (no field present). -/
def SpellBody.empty : SpellBody :=
  { name := none, element := none, rarity := none, manaCost := none
    cooldownSec := none, description := none, ingredients := none }

/-- The name check of validateSpell:
`!spell.name || typeof spell.name !== string || spell.name.trim() === ` empty. -/
def nameInvalid : Option JsVal → Bool
  | none => true
  | some v =>
      !(jsTruthy v) ||
      (match v with | .str _ => false | _ => true) ||
      (match v with | .str s => jsTrim s == "" | _ => false)

/-- `ELEMENTS.includes(v)` style membership: only a string can be a member. -/
def isEnumStr (v : JsVal) (allowed : List String) : Bool :=
  match v with
  | .str s => allowed.contains s
  | _ => false

/-- `typeof v === number && v >= 0`. -/
def isNonNegNum : JsVal → Bool
  | .num n => decide (0 ≤ n)
  | _ => false

/-- `typeof v === string`. -/
def isStrVal : JsVal → Bool
  | .str _ => true
  | _ => false

/-- One `if (spell.f !== undefined && bad) errors.push(msg)` block of
validateSpell: emit the message when the field is present and fails its
check. -/
def checkOpt (o : Option JsVal) (p : JsVal → Bool) (msg : String) : List String :=
  match o with
  | some v => if !(p v) then [msg] else []
  | none => []

/-- The ingredients block of validateSpell: a present value must be an
array, and then an array of strings. -/
def checkIngredients (o : Option JsVal) : List String :=
  match o with
  | some v =>
      match v with
      | .arr elems =>
          if !(elems.all isStrVal) then ["ingredients must be an array of strings"] else []
      | _ => ["ingredients must be an array"]
  | none => []

/-- Transcription of `validateSpell(spell, isUpdate)`: collects the error
messages pushed by each conditional, in source order. -/
def validateSpell (spell : SpellBody) (isUpdate : Bool) : List String :=
  (if !isUpdate || spell.name.isSome then
     if nameInvalid spell.name then ["name is required and must be a non-empty string"] else []
   else []) ++
  checkOpt spell.element (fun v => isEnumStr v ELEMENTS)
    "element must be one of: Arcane, Fire, Frost, Storm, Nature" ++
  checkOpt spell.rarity (fun v => isEnumStr v RARITIES)
    "rarity must be one of: Common, Uncommon, Rare, Mythic" ++
  checkOpt spell.manaCost isNonNegNum "manaCost must be a non-negative number" ++
  checkOpt spell.cooldownSec isNonNegNum "cooldownSec must be a non-negative number" ++
  checkOpt spell.description isStrVal "description must be a string" ++
  checkIngredients spell.ingredients

/-! ### Spell records

Timestamps are ISO-8601 UTC strings in the code; their ordering agrees
with chronological order, so they are modelled as naturals. -/

structure Spell where
  id : String
  name : String
  element : String
  rarity : String
  manaCost : Int
  cooldownSec : Int
  description : String
  ingredients : List String
  createdAt : Nat
  updatedAt : Nat
  deletedAt : Option Nat
deriving DecidableEq, Repr

/-- The record built by POST /spells once validation has passed:
server-assigned id, `createdAt` and `updatedAt` both set to `now`, and
the `||`-defaulting of every optional field. -/
def createSpellRecord (body : SpellBody) (newId : String) (now : Nat) : Spell :=
  { id := newId
    name := jsTrim (asStr (body.name.getD (.str "")))
    element := asStr (jsOr body.element (.str "Arcane"))
    rarity := asStr (jsOr body.rarity (.str "Common"))
    manaCost := asNum (jsOr body.manaCost (.num 0))
    cooldownSec := asNum (jsOr body.cooldownSec (.num 0))
    description := asStr (jsOr body.description (.str ""))
    ingredients := asStrList (jsOr body.ingredients (.arr []))
    createdAt := now
    updatedAt := now
    deletedAt := none }

/-- POST /spells: run validation; on failure reply 400 with the messages
joined by a semicolon, otherwise build and persist the record. -/
def postSpellsRoute (body : SpellBody) (newId : String) (now : Nat) :
    Except (Nat × String) Spell :=
  let errors := validateSpell body false
  if errors.isEmpty then .ok (createSpellRecord body newId now)
  else .error (400, String.intercalate "; " errors)

/-! ### Record store (server/storage) -/

/-- The persistent state: the live set (spells.json) and the trash
(trash.json). -/
structure Store where
  spells : List Spell
  trash : List Spell
deriving DecidableEq, Repr

/-- `getSpellById`: first live record with the given id, or null. -/
def getSpellById (id : String) (st : Store) : Option Spell :=
  st.spells.find? (fun s => s.id == id)

/-- `splice(index, 1)` at the index of the first record with the given
id: remove the first matching record, keep everything else. -/
def removeFirstById (id : String) : List Spell → List Spell
  | [] => []
  | s :: rest => if s.id == id then rest else s :: removeFirstById id rest

/-- `spells[index] = merged` at the index of the first record with the
given id. -/
def replaceFirstById (id : String) (merged : Spell) : List Spell → List Spell
  | [] => []
  | s :: rest => if s.id == id then merged :: rest else s :: replaceFirstById id merged rest

/-- `deleteSpell(id)`: if the id is live, push a copy stamped with
`deletedAt` onto the trash, splice the record out of the live set and
return the pre-deletion record; otherwise return null and leave the
store unchanged. -/
def deleteSpell (now : Nat) (id : String) (st : Store) : Option Spell × Store :=
  match st.spells.find? (fun s => s.id == id) with
  | none => (none, st)
  | some deletedSpell =>
      let trashedSpell := { deletedSpell with deletedAt := some now }
      (some deletedSpell,
       { spells := removeFirstById id st.spells
         trash := st.trash ++ [trashedSpell] })

/-- `getTrash()`. -/
def getTrash (st : Store) : List Spell := st.trash

/-- `restoreSpell(id)`: if the id is in the trash, strip `deletedAt`,
push the record back onto the live set, splice it out of the trash and
return it; otherwise return null. -/
def restoreSpell (id : String) (st : Store) : Option Spell × Store :=
  match st.trash.find? (fun s => s.id == id) with
  | none => (none, st)
  | some spellToRestore =>
      let restored := { spellToRestore with deletedAt := none }
      (some restored,
       { spells := st.spells ++ [restored]
         trash := removeFirstById id st.trash })

/-- The sort comparator of `getSpellsPaginated`: `dateB - dateA`, i.e.
newest first; as a stable-sort `le` relation, `a` may stay before `b`
exactly when `b.createdAt ≤ a.createdAt`. -/
def createdDescLe (a b : Spell) : Bool := decide (b.createdAt ≤ a.createdAt)

/-- The sorted copy `[...spells].sort(...)` (JavaScript sort is stable). -/
def sortSpellsByCreatedDesc (spells : List Spell) : List Spell :=
  spells.mergeSort createdDescLe

/-- Result shape of `getSpellsPaginated`. -/
structure Page where
  items : List Spell
  total : Nat
deriving DecidableEq, Repr

/-- `getSpellsPaginated(limit, offset)`: sort newest first, report the
full count as `total` and `slice(offset, offset + limit)` as `items`. -/
def getSpellsPaginated (limit offset : Nat) (spells : List Spell) : Page :=
  let sortedSpells := sortSpellsByCreatedDesc spells
  { items := (sortedSpells.drop offset).take limit
    total := sortedSpells.length }

/-! ### PUT /spells/:id (server/index.js file-backend variant) -/

/-- The `updates` object built by the PUT route after validation:
`{...req.body, updatedAt: now}` with a present name trimmed.  Fields are
extracted to their validated types. -/
structure SpellUpdates where
  name : Option String
  element : Option String
  rarity : Option String
  manaCost : Option Int
  cooldownSec : Option Int
  description : Option String
  ingredients : Option (List String)
  updatedAt : Nat

def bodyToUpdates (body : SpellBody) (now : Nat) : SpellUpdates :=
  { name := body.name.map (fun v => jsTrim (asStr v))
    element := body.element.map asStr
    rarity := body.rarity.map asStr
    manaCost := body.manaCost.map asNum
    cooldownSec := body.cooldownSec.map asNum
    description := body.description.map asStr
    ingredients := body.ingredients.map asStrList
    updatedAt := now }

/-- The spread merge `{ ...spells[index], ...updates }`. -/
def applyUpdates (s : Spell) (u : SpellUpdates) : Spell :=
  { s with
    name := u.name.getD s.name
    element := u.element.getD s.element
    rarity := u.rarity.getD s.rarity
    manaCost := u.manaCost.getD s.manaCost
    cooldownSec := u.cooldownSec.getD s.cooldownSec
    description := u.description.getD s.description
    ingredients := u.ingredients.getD s.ingredients
    updatedAt := u.updatedAt }

/-- `updateSpell(id, updates)` in the storage layer: find the first live
record with the id, overwrite it in place with the merge, return it. -/
def updateSpell (id : String) (u : SpellUpdates) (st : Store) : Option Spell × Store :=
  match st.spells.find? (fun s => s.id == id) with
  | none => (none, st)
  | some sp =>
      let merged := applyUpdates sp u
      (some merged, { st with spells := replaceFirstById id merged st.spells })

/-- PUT /spells/:id: 404 when the id is not live, 400 on validation
errors (update mode), otherwise merge and reply with the updated record. -/
def putSpellRoute (id : String) (body : SpellBody) (now : Nat) (st : Store) :
    Except (Nat × String) (Spell × Store) :=
  match getSpellById id st with
  | none => .error (404, "Spell not found")
  | some _ =>
      let errors := validateSpell body true
      if errors.isEmpty then
        match updateSpell id (bodyToUpdates body now) st with
        | (some sp, st2) => .ok (sp, st2)
        | (none, _) => .error (404, "Spell not found")
      else .error (400, String.intercalate "; " errors)

/-! ### GET /spells (server/app.js hosted-backend variant)

Query parameters are raw strings; `parseInt(x, 10)` skips leading
whitespace, accepts an optional sign and the longest digit prefix, and
yields NaN (here `none`) when no digit is found. -/

def digitsToNat (ds : List Char) : Nat :=
  ds.foldl (fun acc c => acc * 10 + (c.toNat - 48)) 0

def jsParseIntDec (s : String) : Option Int :=
  let cs := s.data.dropWhile Char.isWhitespace
  let signAndRest : Int × List Char :=
    match cs with
    | '-' :: r => (-1, r)
    | '+' :: r => (1, r)
    | r => (1, r)
  let ds := signAndRest.2.takeWhile Char.isDigit
  if ds.isEmpty then none
  else some (signAndRest.1 * Int.ofNat (digitsToNat ds))

/-- Response body of GET /spells in the app.js variant: items plus the
effective limit and offset echoed back, plus the total count. -/
structure SpellsListResponse where
  items : List Spell
  limit : Int
  offset : Int
  total : Nat
deriving DecidableEq, Repr

/-- GET /spells (app.js): parse `limit` (default string "20") and
`offset` (default "0"); 400 when either is NaN; cap the limit at 50,
floor the offset at 0; 400 when the capped limit is below 1; otherwise
answer with the page and echo the effective limit/offset.  The spells
argument is the live set of the storage fallback. -/
def getSpellsRoute (limitQ offsetQ : Option String) (spells : List Spell) :
    Except (Nat × String) SpellsListResponse :=
  match jsParseIntDec (limitQ.getD "20") with
  | none => .error (400, "limit must be a number")
  | some limitParsed =>
      match jsParseIntDec (offsetQ.getD "0") with
      | none => .error (400, "offset must be a number")
      | some offsetParsed =>
          let limit := min limitParsed 50
          let offset := max offsetParsed 0
          if limit < 1 then .error (400, "limit must be at least 1")
          else
            let page := getSpellsPaginated limit.toNat offset.toNat spells
            .ok { items := page.items, limit := limit, offset := offset, total := page.total }

/-! ### Client store (src/state.js) -/

inductive SortOrder where
  | asc
  | desc
deriving DecidableEq, Repr

structure LoadingFlags where
  list : Bool
  spell : Bool
  save : Bool
  delete : Bool
deriving DecidableEq, Repr

structure ClientState where
  spells : List Spell
  selectedSpell : Option Spell
  total : Nat
  offset : Nat
  loading : LoadingFlags
  error : Option String
  searchQuery : String
  sortOrder : SortOrder
deriving DecidableEq, Repr

/-- The initial module-level `state` object. -/
def initialClientState : ClientState :=
  { spells := []
    selectedSpell := none
    total := 0
    offset := 0
    loading := { list := false, spell := false, save := false, delete := false }
    error := none
    searchQuery := ""
    sortOrder := .asc }

/-- `setSpells(spells, total)`. -/
def setSpells (spells : List Spell) (total : Nat) (st : ClientState) : ClientState :=
  { st with spells := spells, total := total, offset := spells.length }

/-- `appendSpells(newSpells, total)`. -/
def appendSpells (newSpells : List Spell) (total : Nat) (st : ClientState) : ClientState :=
  { st with
    spells := st.spells ++ newSpells
    total := total
    offset := st.spells.length + newSpells.length }

def setSelectedSpell (spell : Spell) (st : ClientState) : ClientState :=
  { st with selectedSpell := some spell }

def clearSelectedSpell (st : ClientState) : ClientState :=
  { st with selectedSpell := none }

inductive LoadKey where
  | list
  | spell
  | save
  | delete
deriving DecidableEq, Repr

/-- `setLoading(key, value)`. -/
def setLoading (key : LoadKey) (value : Bool) (st : ClientState) : ClientState :=
  { st with
    loading :=
      match key with
      | .list => { st.loading with list := value }
      | .spell => { st.loading with spell := value }
      | .save => { st.loading with save := value }
      | .delete => { st.loading with delete := value } }

def setError (e : String) (st : ClientState) : ClientState :=
  { st with error := some e }

def clearError (st : ClientState) : ClientState :=
  { st with error := none }

def setSearchQuery (q : String) (st : ClientState) : ClientState :=
  { st with searchQuery := q }

def setSortOrder (o : SortOrder) (st : ClientState) : ClientState :=
  { st with sortOrder := o }

/-- `updateSpellInList(updatedSpell)`: replace in place when an entry
with the same id is loaded, otherwise prepend and bump the total. -/
def updateSpellInList (updatedSpell : Spell) (st : ClientState) : ClientState :=
  if st.spells.any (fun s => s.id == updatedSpell.id) then
    { st with spells := replaceFirstById updatedSpell.id updatedSpell st.spells }
  else
    { st with spells := updatedSpell :: st.spells, total := st.total + 1 }

/-- `removeSpellFromList(id)`: filter out by id and decrement the total,
floored at 0 (natural subtraction models `Math.max(0, total - 1)`). -/
def removeSpellFromList (id : String) (st : ClientState) : ClientState :=
  { st with
    spells := st.spells.filter (fun s => !(s.id == id))
    total := st.total - 1 }

/-! ### Derived filtered/sorted view (getFilteredSpells) -/

/-- Substring containment on character lists, the model of the
JavaScript `String.prototype.includes`. -/
def hasInfix (needle : List Char) : List Char → Bool
  | [] => needle.isEmpty
  | c :: t => needle.isPrefixOf (c :: t) || hasInfix needle t

/-- `hay.includes(needle)`. -/
def jsIncludes (hay needle : String) : Bool :=
  hasInfix needle.data hay.data

/-- The filter predicate of getFilteredSpells: the lowercased query
(the untrimmed search string, lower-cased once) must occur in the
lowercased name, description or element. -/
def matchesQuery (query : String) (sp : Spell) : Bool :=
  jsIncludes (jsToLower sp.name) query ||
  jsIncludes (jsToLower sp.description) query ||
  jsIncludes (jsToLower sp.element) query

/-- The sort `le` relation derived from the comparator
`a.name.localeCompare(b.name)` (ascending) or its negation (descending).
`lc` is the abstract locale-aware comparison. -/
def spellNameLe (lc : String → String → Int) (ord : SortOrder) (a b : Spell) : Bool :=
  match ord with
  | .asc => decide (lc a.name b.name ≤ 0)
  | .desc => decide (-(lc a.name b.name) ≤ 0)

/-- `getFilteredSpells()`: copy the loaded list; when the trimmed search
query is non-empty, filter by the untrimmed lowercased query; finally
stable-sort by name in the direction of `sortOrder`. -/
def getFilteredSpells (lc : String → String → Int) (st : ClientState) : List Spell :=
  let filtered :=
    if jsTrim st.searchQuery != "" then
      let query := jsToLower st.searchQuery
      st.spells.filter (fun sp => matchesQuery query sp)
    else st.spells
  filtered.mergeSort (spellNameLe lc st.sortOrder)

/-! ### Sync orchestrator (src/main.js)

Each operation is a sequence of client-store mutations around a single
network call; the call's outcome is passed in explicitly
(`Except String payload` for resolve/reject). -/

/-- `loadSpells(offset)`: no-op while a list load is in flight;
otherwise set the list flag, clear the error, fold the result in
(`setSpells` for offset 0, `appendSpells` otherwise) or record the
failure, and always clear the flag. -/
def loadSpellsRun (st : ClientState) (offset : Nat)
    (result : Except String (List Spell × Nat)) : ClientState :=
  if st.loading.list then st
  else
    let st1 := clearError (setLoading .list true st)
    let st2 :=
      match result with
      | .ok (items, total) =>
          if offset == 0 then setSpells items total st1 else appendSpells items total st1
      | .error msg => setError msg st1
    setLoading .list false st2

/-- `loadSpell(id)`: single-flight guard on the spell flag; on success
populate the selection. -/
def loadSpellRun (st : ClientState) (result : Except String Spell) : ClientState :=
  if st.loading.spell then st
  else
    let st1 := clearError (setLoading .spell true st)
    let st2 :=
      match result with
      | .ok sp => setSelectedSpell sp st1
      | .error msg => setError msg st1
    setLoading .spell false st2

/-- `saveSpell()`: no-op without a selection or while a save is in
flight.  Inside the try block: an empty trimmed form name throws (caught
as an error); an update (selection has an id) applies
`setSelectedSpell` then `updateSpellInList`; a create applies
`setSelectedSpell`, reloads page one via `loadSpells(0)` and re-selects.
The finally clause always clears the save flag.  Drafts carry the empty
id (`createNewSpell` builds a record without one). -/
def saveSpellRun (st : ClientState) (formName : String)
    (saveResult : Except String Spell)
    (reloadResult : Except String (List Spell × Nat)) : ClientState :=
  match st.selectedSpell with
  | none => st
  | some sel =>
      if st.loading.save then st
      else
        let st1 := clearError (setLoading .save true st)
        let st2 :=
          if jsTrim formName == "" then setError "Name is required" st1
          else
            match saveResult with
            | .error msg => setError msg st1
            | .ok saved =>
                let st3 := setSelectedSpell saved st1
                if sel.id != "" then updateSpellInList saved st3
                else setSelectedSpell saved (loadSpellsRun st3 0 reloadResult)
        setLoading .save false st2

/-- `deleteSpell(id)` in the orchestrator: abort without confirmation;
single-flight guard on the delete flag; on success remove the record
from the list and clear the selection; always clear the flag. -/
def deleteSpellRun (st : ClientState) (confirmed : Bool) (id : String)
    (result : Except String JsVal) : ClientState :=
  if !confirmed then st
  else if st.loading.delete then st
  else
    let st1 := clearError (setLoading .delete true st)
    let st2 :=
      match result with
      | .ok _ => clearSelectedSpell (removeSpellFromList id st1)
      | .error msg => setError msg st1
    setLoading .delete false st2

/-! ### JSON parsing (model of JSON.parse) and the client API (src/api.js)

The parser covers the JSON grammar as used by the API: literals,
integral numbers (a fractional part is consumed but dropped, since
numbers are modelled as Int), strings with single-character escapes,
arrays and objects.  Parsing consumes fuel once per recursive step. -/

def parseJsonStrAux : List Char → Bool → List Char → Option (String × List Char)
  | [], _, _ => none
  | c :: rest, esc, acc =>
      if esc then
        let d :=
          if c == 'n' then '\n'
          else if c == 't' then '\t'
          else if c == 'r' then '\r'
          else c
        parseJsonStrAux rest false (d :: acc)
      else if c == '\\' then parseJsonStrAux rest true acc
      else if c == '"' then some (String.mk acc.reverse, rest)
      else parseJsonStrAux rest false (c :: acc)

/-- Parse the remainder of a JSON string (the opening quote already
consumed). -/
def parseJsonStr (cs : List Char) : Option (String × List Char) :=
  parseJsonStrAux cs false []

/-- Parse a JSON number; the optional fractional/exponent tail is
consumed and dropped. -/
def parseJsonNum (cs : List Char) : Option (Int × List Char) :=
  let signAndRest : Int × List Char :=
    match cs with
    | '-' :: r => (-1, r)
    | r => (1, r)
  let ds := signAndRest.2.takeWhile Char.isDigit
  if ds.isEmpty then none
  else
    let afterInt := signAndRest.2.dropWhile Char.isDigit
    let afterFrac :=
      match afterInt with
      | '.' :: r => r.dropWhile Char.isDigit
      | r => r
    let afterExp :=
      match afterFrac with
      | 'e' :: r =>
          (match r with
           | '-' :: r2 => r2.dropWhile Char.isDigit
           | '+' :: r2 => r2.dropWhile Char.isDigit
           | r2 => r2.dropWhile Char.isDigit)
      | 'E' :: r =>
          (match r with
           | '-' :: r2 => r2.dropWhile Char.isDigit
           | '+' :: r2 => r2.dropWhile Char.isDigit
           | r2 => r2.dropWhile Char.isDigit)
      | r => r
    some (signAndRest.1 * Int.ofNat (digitsToNat ds), afterExp)

mutual

def parseJsonValue : Nat → List Char → Option (JsVal × List Char)
  | 0, _ => none
  | fuel + 1, input =>
      match input.dropWhile Char.isWhitespace with
      | [] => none
      | c :: rest =>
          if c == '"' then
            match parseJsonStr rest with
            | some (s, r) => some (.str s, r)
            | none => none
          else if c == '\x7b' then parseJsonMembers fuel rest []
          else if c == '[' then parseJsonElems fuel rest []
          else
            match c :: rest with
            | 'n' :: 'u' :: 'l' :: 'l' :: r => some (.nullv, r)
            | 't' :: 'r' :: 'u' :: 'e' :: r => some (.boolean true, r)
            | 'f' :: 'a' :: 'l' :: 's' :: 'e' :: r => some (.boolean false, r)
            | cs =>
                match parseJsonNum cs with
                | some (n, r) => some (.num n, r)
                | none => none

def parseJsonElems : Nat → List Char → List JsVal → Option (JsVal × List Char)
  | 0, _, _ => none
  | fuel + 1, input, acc =>
      match input.dropWhile Char.isWhitespace with
      | ']' :: r =>
          if acc.isEmpty then some (.arr [], r) else none
      | cs =>
          match parseJsonValue fuel cs with
          | none => none
          | some (v, r) =>
              match r.dropWhile Char.isWhitespace with
              | ',' :: rr => parseJsonElems fuel rr (acc ++ [v])
              | ']' :: rr => some (.arr (acc ++ [v]), rr)
              | _ => none

def parseJsonMembers : Nat → List Char → List (String × JsVal) → Option (JsVal × List Char)
  | 0, _, _ => none
  | fuel + 1, input, acc =>
      match input.dropWhile Char.isWhitespace with
      | '\x7d' :: r =>
          if acc.isEmpty then some (.obj [], r) else none
      | '"' :: r =>
          match parseJsonStr r with
          | none => none
          | some (key, r2) =>
              match r2.dropWhile Char.isWhitespace with
              | ':' :: r3 =>
                  match parseJsonValue fuel r3 with
                  | none => none
                  | some (v, r4) =>
                      match r4.dropWhile Char.isWhitespace with
                      | ',' :: rr => parseJsonMembers fuel rr (acc ++ [(key, v)])
                      | '\x7d' :: rr => some (.obj (acc ++ [(key, v)]), rr)
                      | _ => none
              | _ => none
      | _ => none

end

/-- `JSON.parse(s)`: parse one value and require only trailing
whitespace after it.  The fuel bound suffices for any input of this
length. -/
def jsonParse (s : String) : Option JsVal :=
  match parseJsonValue (2 * s.data.length + 2) s.data with
  | some (v, rest) => if (rest.dropWhile Char.isWhitespace).isEmpty then some v else none
  | none => none

/-- A fetch response as the client code observes it. -/
structure HttpResponse where
  status : Nat
  body : String
deriving DecidableEq, Repr

/-- `response.ok`: status in the 200..299 range. -/
def HttpResponse.isOk (r : HttpResponse) : Bool :=
  decide (200 ≤ r.status) && decide (r.status < 300)

/-- Field access `v.key` on a parsed JSON value (`none` models
undefined). -/
def jsField (v : JsVal) (key : String) : Option JsVal :=
  match v with
  | .obj fields => (fields.find? (fun p => p.1 == key)).map (fun p => p.2)
  | _ => none

/-- `parseErrorMessage(response, fallback)`:
`error.message || error.error || fallback` over the body parsed as JSON,
an empty object when parsing fails. -/
def parseErrorMessage (r : HttpResponse) (fallback : String) : String :=
  let errVal := (jsonParse r.body).getD (.obj [])
  match jsField errVal "message" with
  | some v =>
      if jsTruthy v then asStr v
      else
        match jsField errVal "error" with
        | some w => if jsTruthy w then asStr w else fallback
        | none => fallback
  | none =>
      match jsField errVal "error" with
      | some w => if jsTruthy w then asStr w else fallback
      | none => fallback

/-- `deleteSpell(id)` in src/api.js: on a non-ok status, reject with the
parsed error message; on an ok status, unconditionally parse the body as
JSON (`return await response.json()`), so an unparsable body also makes
the promise reject (the rejection is re-thrown by the catch clause). -/
def deleteSpellClient (resp : HttpResponse) : Except String JsVal :=
  if resp.isOk then
    match jsonParse resp.body with
    | some v => .ok v
    | none => .error "Unexpected end of JSON input"
  else .error (parseErrorMessage resp "Failed to delete spell")

/-- DELETE /spells/:id in server/app.js (hosted backend): when the row
exists the route replies `204 No Content` with an empty body
(`res.status(204).send()`); otherwise 404 with a JSON message. -/
def appDeleteSpellRoute (deleted : Option Spell) : HttpResponse :=
  match deleted with
  | some _ => { status := 204, body := "" }
  | none => { status := 404, body := "\x7b\"message\":\"Spell not found\"\x7d" }

/-! ### Well-formedness of the store

Ids are server-assigned UUIDs, unique across the live set and the
trash, and live records carry no `deletedAt` stamp; every store
reachable through the API operations satisfies this. -/

def Store.wf (st : Store) : Prop :=
  ((st.spells ++ st.trash).map Spell.id).Nodup ∧ ∀ s ∈ st.spells, s.deletedAt = none

instance (st : Store) : Decidable st.wf :=
  inferInstanceAs
    (Decidable
      (((st.spells ++ st.trash).map Spell.id).Nodup ∧ ∀ s ∈ st.spells, s.deletedAt = none))

/-! ### Helper lemmas about the list surgery of the store -/

theorem find?_eq_none_of_ids {id : String} {l : List Spell}
    (h : ∀ s ∈ l, s.id ≠ id) : l.find? (fun s => s.id == id) = none := by
  apply List.find?_eq_none.mpr
  intro x hx
  simpa using h x hx

theorem find?_removeFirstById {id : String} :
    ∀ {l : List Spell}, (l.map Spell.id).Nodup →
      (removeFirstById id l).find? (fun s => s.id == id) = none := by
  intro l
  induction l with
  | nil => intro _; rfl
  | cons s t ih =>
      intro h
      rw [List.map_cons, List.nodup_cons] at h
      by_cases hs : s.id = id
      · have hrw : removeFirstById id (s :: t) = t := by
          simp [removeFirstById, hs]
        rw [hrw]
        apply find?_eq_none_of_ids
        intro x hx hxid
        have hxm : x.id ∈ t.map Spell.id := List.mem_map_of_mem Spell.id hx
        rw [hxid, ← hs] at hxm
        exact h.1 hxm
      · have hrw : removeFirstById id (s :: t) = s :: removeFirstById id t := by
          simp [removeFirstById, hs]
        rw [hrw, List.find?_cons_of_neg]
        · exact ih h.2
        · simpa using hs

theorem removeFirstById_append_left {id : String} {l1 l2 : List Spell}
    (h : ∀ x ∈ l1, x.id ≠ id) :
    removeFirstById id (l1 ++ l2) = l1 ++ removeFirstById id l2 := by
  induction l1 with
  | nil => simp
  | cons s t ih =>
      have hs : ¬ s.id = id := h s (by simp)
      simp only [List.cons_append, removeFirstById]
      rw [if_neg (by simpa using hs)]
      simp only [List.append_eq]
      rw [ih (fun x hx => h x (by simp [hx]))]

theorem spell_eta_deletedAt_none {x : Spell} (hx : x.deletedAt = none) :
    { x with deletedAt := none } = x := by
  cases x
  simp_all

/-! ### Claim C1: delete moves the record to the trash -/

/-- Claim C1: for a live id, `deleteSpell` returns the pre-deletion
record, appends exactly that record stamped with `deletedAt` to the
trash (afterwards the trash holds exactly one entry with that id, and it
bears the stamp), and the live set no longer resolves the id. -/
theorem claim_C1_delete_moves_to_trash
    (st : Store) (id : String) (now : Nat) (r : Spell)
    (hwf : st.wf) (hget : getSpellById id st = some r) :
    (deleteSpell now id st).1 = some r ∧
    (deleteSpell now id st).2.trash = st.trash ++ [{ r with deletedAt := some now }] ∧
    ((deleteSpell now id st).2.trash.filter (fun t => t.id == id)).length = 1 ∧
    (∀ t ∈ (deleteSpell now id st).2.trash, t.id = id → t.deletedAt = some now) ∧
    getSpellById id (deleteSpell now id st).2 = none := by
  have hfind : st.spells.find? (fun s => s.id == id) = some r := hget
  have hrid : r.id = id := by simpa using List.find?_some hfind
  have hrmem : r ∈ st.spells := List.mem_of_find?_eq_some hfind
  obtain ⟨hnodup, hlive⟩ := hwf
  rw [List.map_append] at hnodup
  rw [List.nodup_append] at hnodup
  have htrash : ∀ t ∈ st.trash, t.id ≠ id := by
    intro t ht he
    exact hnodup.2.2 (hrid ▸ List.mem_map_of_mem Spell.id hrmem)
      (he ▸ List.mem_map_of_mem Spell.id ht)
  have hdel :
      deleteSpell now id st =
        (some r,
         { spells := removeFirstById id st.spells
           trash := st.trash ++ [{ r with deletedAt := some now }] }) := by
    simp [deleteSpell, hfind]
  refine ⟨by rw [hdel], by rw [hdel], ?_, ?_, ?_⟩
  · rw [hdel]
    have h1 : st.trash.filter (fun t => t.id == id) = [] := by
      apply List.filter_eq_nil_iff.mpr
      intro t ht
      simpa using htrash t ht
    simp [List.filter_append, h1, hrid]
  · rw [hdel]
    intro t ht hid
    rcases List.mem_append.mp ht with h | h
    · exact absurd hid (htrash t h)
    · rcases List.mem_singleton.mp h with rfl
      rfl
  · rw [hdel]
    exact find?_removeFirstById hnodup.1

/-- A concrete record used to instantiate the theorems. -/
def demoSpell : Spell :=
  { id := "a", name := "Zap", element := "Arcane", rarity := "Common"
    manaCost := 1, cooldownSec := 2, description := "boom", ingredients := ["wax"]
    createdAt := 5, updatedAt := 5, deletedAt := none }

def demoStore : Store := { spells := [demoSpell], trash := [] }

theorem claim_C1_witness :
    (deleteSpell 9 "a" demoStore).1 = some demoSpell ∧
    getSpellById "a" (deleteSpell 9 "a" demoStore).2 = none := by
  have h := claim_C1_delete_moves_to_trash demoStore "a" 9 demoSpell (by decide) (by decide)
  exact ⟨h.1, h.2.2.2.2⟩

/-! ### Claim C4: delete followed by restore is the identity on the record -/

/-- Claim C4: deleting a live record and then restoring its id yields
back exactly the original record (so in particular field-for-field
equality, `deletedAt` absent, id and createdAt kept), makes it
resolvable in the live set again, and leaves the trash as before. -/
theorem claim_C4_delete_restore_roundtrip
    (st : Store) (id : String) (now : Nat) (r : Spell)
    (hwf : st.wf) (hget : getSpellById id st = some r) :
    (restoreSpell id (deleteSpell now id st).2).1 = some r ∧
    getSpellById id (restoreSpell id (deleteSpell now id st).2).2 = some r ∧
    (restoreSpell id (deleteSpell now id st).2).2.trash = st.trash ∧
    r.deletedAt = none := by
  have hfind : st.spells.find? (fun s => s.id == id) = some r := hget
  have hrid : r.id = id := by simpa using List.find?_some hfind
  have hrmem : r ∈ st.spells := List.mem_of_find?_eq_some hfind
  obtain ⟨hnodup, hlive⟩ := hwf
  have hrdel : r.deletedAt = none := hlive r hrmem
  rw [List.map_append] at hnodup
  rw [List.nodup_append] at hnodup
  have htrash : ∀ t ∈ st.trash, t.id ≠ id := by
    intro t ht he
    exact hnodup.2.2 (hrid ▸ List.mem_map_of_mem Spell.id hrmem)
      (he ▸ List.mem_map_of_mem Spell.id ht)
  have hdel :
      (deleteSpell now id st).2 =
        { spells := removeFirstById id st.spells
          trash := st.trash ++ [{ r with deletedAt := some now }] } := by
    simp [deleteSpell, hfind]
  have hstripped : ({ { r with deletedAt := some now } with deletedAt := none } : Spell) = r := by
    have := spell_eta_deletedAt_none hrdel
    simp_all
  have htrashfind :
      (st.trash ++ [{ r with deletedAt := some now }]).find? (fun s => s.id == id) =
        some { r with deletedAt := some now } := by
    rw [List.find?_append, find?_eq_none_of_ids htrash]
    simp [hrid]
  have hres :
      restoreSpell id (deleteSpell now id st).2 =
        (some r,
         { spells := removeFirstById id st.spells ++ [r]
           trash := removeFirstById id (st.trash ++ [{ r with deletedAt := some now }]) }) := by
    rw [hdel]
    simp only [restoreSpell, htrashfind, hstripped]
  refine ⟨by rw [hres], ?_, ?_⟩
  · rw [hres]
    show (removeFirstById id st.spells ++ [r]).find? (fun s => s.id == id) = some r
    rw [List.find?_append, find?_removeFirstById hnodup.1]
    simp [hrid]
  · refine ⟨?_, hrdel⟩
    rw [hres]
    show removeFirstById id (st.trash ++ [{ r with deletedAt := some now }]) = st.trash
    rw [removeFirstById_append_left htrash]
    simp [removeFirstById, hrid]

theorem claim_C4_witness :
    (restoreSpell "a" (deleteSpell 9 "a" demoStore).2).1 = some demoSpell ∧
    getSpellById "a" (restoreSpell "a" (deleteSpell 9 "a" demoStore).2).2 = some demoSpell := by
  have h := claim_C4_delete_restore_roundtrip demoStore "a" 9 demoSpell (by decide) (by decide)
  exact ⟨h.1, h.2.1⟩

/-! ### Claim C2: pagination -/

/-- The reported total is always the full live-record count. -/
theorem getSpellsPaginated_total (spells : List Spell) (limit offset : Nat) :
    (getSpellsPaginated limit offset spells).total = spells.length := by
  simp [getSpellsPaginated, sortSpellsByCreatedDesc]

/-- Claim C2: `getSpellsPaginated` reports the full live count as
`total` regardless of limit and offset, its `items` are the contiguous
slice of the creation-time-descending ordering of the live set (a sorted
permutation of it), and an offset at or past the count yields an empty
item list without error. -/
theorem claim_C2_pagination_spec (spells : List Spell) (limit offset : Nat) :
    (getSpellsPaginated limit offset spells).total = spells.length ∧
    (getSpellsPaginated limit offset spells).items =
      ((sortSpellsByCreatedDesc spells).drop offset).take limit ∧
    (sortSpellsByCreatedDesc spells).Perm spells ∧
    (sortSpellsByCreatedDesc spells).Pairwise (fun a b => b.createdAt ≤ a.createdAt) ∧
    (spells.length ≤ offset → (getSpellsPaginated limit offset spells).items = []) := by
  have hperm : (sortSpellsByCreatedDesc spells).Perm spells :=
    List.mergeSort_perm spells createdDescLe
  refine ⟨?_, rfl, hperm, ?_, ?_⟩
  · exact getSpellsPaginated_total spells limit offset
  · have htrans : ∀ (a b c : Spell), createdDescLe a b → createdDescLe b c → createdDescLe a c := by
      intro a b c
      simp only [createdDescLe, decide_eq_true_eq]
      omega
    have htot : ∀ (a b : Spell), createdDescLe a b || createdDescLe b a := by
      intro a b
      simp only [createdDescLe]
      by_cases h : b.createdAt ≤ a.createdAt
      · simp [h]
      · simp [h]
        omega
    have h := List.sorted_mergeSort htrans htot spells
    exact h.imp (by intro a b hb; simpa [createdDescLe] using hb)
  · intro h
    have hlen : (sortSpellsByCreatedDesc spells).length ≤ offset := by
      rw [hperm.length_eq]
      exact h
    simp [getSpellsPaginated, List.drop_eq_nil_of_le hlen]

/-- Five live records for the offset-past-the-end scenario. -/
def demoFive : List Spell :=
  [{ demoSpell with id := "b1", createdAt := 1 },
   { demoSpell with id := "b2", createdAt := 2 },
   { demoSpell with id := "b3", createdAt := 3 },
   { demoSpell with id := "b4", createdAt := 4 },
   { demoSpell with id := "b5", createdAt := 5 }]

theorem claim_C2_witness :
    (getSpellsPaginated 20 999999 demoFive).total = 5 ∧
    (getSpellsPaginated 20 999999 demoFive).items = [] := by
  have h := claim_C2_pagination_spec demoFive 20 999999
  exact ⟨by rw [h.1]; rfl, h.2.2.2.2 (by decide)⟩

/-! ### Claim C6: client offset bookkeeping -/

/-- Claim C6: `setSpells` sets the offset to the length of the replaced
list, `appendSpells` to the previous length plus the appended length; in
both cases the offset equals the new list length, and a `setSpells`
after an `appendSpells` resets the offset to the new list length. -/
theorem claim_C6_offset_invariant (st : ClientState)
    (items items2 : List Spell) (total total2 : Nat) :
    (setSpells items total st).offset = items.length ∧
    (setSpells items total st).offset = (setSpells items total st).spells.length ∧
    (appendSpells items total st).offset = st.spells.length + items.length ∧
    (appendSpells items total st).offset = (appendSpells items total st).spells.length ∧
    (setSpells items2 total2 (appendSpells items total st)).offset = items2.length := by
  refine ⟨rfl, ?_, rfl, ?_, rfl⟩
  · simp [setSpells]
  · simp [appendSpells]

/-! ### Claim C3: update merges, preserves id and createdAt, bumps updatedAt -/

/-- A PUT body that carries a name with surrounding whitespace. -/
def trimCexBody : SpellBody :=
  { SpellBody.empty with name := some (.str "  Mega Zap  ") }

/-- Counterexample to C3 as stated: the body provides the name field
with the value with surrounding whitespace, the update succeeds, yet the
merged record carries the trimmed name, not the provided value — so the
update does not merge exactly the provided fields. -/
theorem claim_C3_counterexample :
    (putSpellRoute "a" trimCexBody 7 demoStore).toOption.map (fun p => p.1.name) =
      some "Mega Zap" ∧
    validateSpell trimCexBody true = [] ∧
    "Mega Zap" ≠ "  Mega Zap  " := by
  refine ⟨by decide, by decide, by decide⟩

/-- Claim C3 (amended): a successful update merges the provided fields
over the existing record — except that a provided name is stored trimmed
of surrounding whitespace — leaves id and createdAt unchanged, and sets
updatedAt to the current time, which is no smaller than the previous
updatedAt under a monotone clock. -/
theorem claim_C3_update_merge_spec
    (st : Store) (id : String) (body : SpellBody) (now : Nat) (existing : Spell)
    (hget : getSpellById id st = some existing)
    (hval : validateSpell body true = [])
    (hclock : existing.updatedAt ≤ now) :
    ∃ r st2, putSpellRoute id body now st = .ok (r, st2) ∧
      r.id = existing.id ∧
      r.createdAt = existing.createdAt ∧
      r.updatedAt = now ∧
      existing.updatedAt ≤ r.updatedAt ∧
      r.name = (match body.name with | some v => jsTrim (asStr v) | none => existing.name) ∧
      r.element = (match body.element with | some v => asStr v | none => existing.element) ∧
      r.rarity = (match body.rarity with | some v => asStr v | none => existing.rarity) ∧
      r.manaCost = (match body.manaCost with | some v => asNum v | none => existing.manaCost) ∧
      r.cooldownSec =
        (match body.cooldownSec with | some v => asNum v | none => existing.cooldownSec) ∧
      r.description =
        (match body.description with | some v => asStr v | none => existing.description) ∧
      r.ingredients =
        (match body.ingredients with | some v => asStrList v | none => existing.ingredients) ∧
      r.deletedAt = existing.deletedAt := by
  have hfind : st.spells.find? (fun s => s.id == id) = some existing := hget
  have hroute :
      putSpellRoute id body now st =
        .ok (applyUpdates existing (bodyToUpdates body now),
             { st with
               spells :=
                 replaceFirstById id (applyUpdates existing (bodyToUpdates body now)) st.spells }) := by
    simp [putSpellRoute, hget, hval, updateSpell, hfind]
  refine ⟨_, _, hroute, rfl, rfl, rfl, hclock, ?_, ?_, ?_, ?_, ?_, ?_, ?_, rfl⟩
  · rcases hb : body.name with _ | v <;> simp [applyUpdates, bodyToUpdates, hb]
  · rcases hb : body.element with _ | v <;> simp [applyUpdates, bodyToUpdates, hb]
  · rcases hb : body.rarity with _ | v <;> simp [applyUpdates, bodyToUpdates, hb]
  · rcases hb : body.manaCost with _ | v <;> simp [applyUpdates, bodyToUpdates, hb]
  · rcases hb : body.cooldownSec with _ | v <;> simp [applyUpdates, bodyToUpdates, hb]
  · rcases hb : body.description with _ | v <;> simp [applyUpdates, bodyToUpdates, hb]
  · rcases hb : body.ingredients with _ | v <;> simp [applyUpdates, bodyToUpdates, hb]

/-- A partial update body setting only the mana cost. -/
def manaBody : SpellBody := { SpellBody.empty with manaCost := some (.num 10) }

theorem claim_C3_witness :
    ∃ r st2, putSpellRoute "a" manaBody 12 demoStore = .ok (r, st2) ∧
      r.manaCost = 10 ∧ r.name = "Zap" ∧ r.id = "a" ∧ r.createdAt = 5 ∧ r.updatedAt = 12 := by
  obtain ⟨r, st2, hroute, hid, hcre, hupd, _, hname, _, _, hmana, _, _, _, _⟩ :=
    claim_C3_update_merge_spec demoStore "a" manaBody 12 demoSpell (by decide) (by decide)
      (by decide)
  exact ⟨r, st2, hroute, by simpa using hmana, by simpa using hname, by simpa using hid,
    by simpa using hcre, hupd⟩

/-! ### Claim C5: create validation and defaults -/

/-- The failure conditions enumerated by the claim, verbatim: name
empty/whitespace-only, element or rarity outside its enum, a numeric
field negative or non-numeric, ingredients not a sequence of strings. -/
def claimedCreateFailureCond (b : SpellBody) : Bool :=
  (match b.name with | some (.str s) => jsTrim s == "" | _ => false) ||
  (match b.element with | some v => !(isEnumStr v ELEMENTS) | none => false) ||
  (match b.rarity with | some v => !(isEnumStr v RARITIES) | none => false) ||
  (match b.manaCost with | some v => !(isNonNegNum v) | none => false) ||
  (match b.cooldownSec with | some v => !(isNonNegNum v) | none => false) ||
  (match b.ingredients with
   | some (.arr es) => !(es.all isStrVal)
   | some _ => true
   | none => false)

/-- A create body whose name is fine but whose description is a number. -/
def badDescBody : SpellBody :=
  { SpellBody.empty with name := some (.str "x"), description := some (.num 0) }

/-- Counterexample to C5 as stated: this body triggers none of the
claimed failure conditions, yet create rejects it with a
ValidationError (the code also validates that description is a string,
which the claim omits). -/
theorem claim_C5_counterexample :
    claimedCreateFailureCond badDescBody = false ∧
    validateSpell badDescBody false = ["description must be a string"] ∧
    postSpellsRoute badDescBody "id-9" 3 = .error (400, "description must be a string") := by
  refine ⟨by decide, by decide, by decide⟩

theorem nameInvalid_eq_false_iff (o : Option JsVal) :
    nameInvalid o = false ↔ ∃ s, o = some (.str s) ∧ jsTrim s ≠ "" := by
  cases o with
  | none => simp [nameInvalid]
  | some v =>
      cases v with
      | str s =>
          by_cases hs : s = ""
          · subst hs
            simp [nameInvalid, jsTruthy, jsTrim]
          · simp [nameInvalid, jsTruthy, hs]
      | num n => simp [nameInvalid]
      | boolean b => simp [nameInvalid]
      | nullv => simp [nameInvalid]
      | arr es => simp [nameInvalid]
      | obj fs => simp [nameInvalid]

theorem checkOpt_eq_nil_iff (o : Option JsVal) (p : JsVal → Bool) (msg : String) :
    checkOpt o p msg = [] ↔ ∀ v, o = some v → p v = true := by
  cases o with
  | none => simp [checkOpt]
  | some v => simp [checkOpt]

theorem checkIngredients_eq_nil_iff (o : Option JsVal) :
    checkIngredients o = [] ↔
      ∀ v, o = some v → ∃ es, v = .arr es ∧ es.all isStrVal = true := by
  cases o with
  | none => simp [checkIngredients]
  | some v =>
      cases v with
      | arr es => simp [checkIngredients]
      | str s => simp [checkIngredients]
      | num n => simp [checkIngredients]
      | boolean b => simp [checkIngredients]
      | nullv => simp [checkIngredients]
      | obj fs => simp [checkIngredients]

/-- Claim C5 (amended): create fails with a ValidationError exactly when
the name is missing, not a string, or empty/whitespace-only after
trimming, or a present element/rarity is outside its enum, or a present
manaCost/cooldownSec is non-numeric or negative, or a present
description is not a string, or a present ingredients is not an array of
strings; otherwise it succeeds with the server-assigned id, equal
createdAt and updatedAt, and defaults for the omitted optional fields. -/
theorem claim_C5_create_spec (b : SpellBody) (newId : String) (now : Nat) :
    (validateSpell b false = [] ↔
      ((∃ s, b.name = some (.str s) ∧ jsTrim s ≠ "") ∧
       (∀ v, b.element = some v → isEnumStr v ELEMENTS = true) ∧
       (∀ v, b.rarity = some v → isEnumStr v RARITIES = true) ∧
       (∀ v, b.manaCost = some v → isNonNegNum v = true) ∧
       (∀ v, b.cooldownSec = some v → isNonNegNum v = true) ∧
       (∀ v, b.description = some v → isStrVal v = true) ∧
       (∀ v, b.ingredients = some v → ∃ es, v = .arr es ∧ es.all isStrVal = true))) ∧
    (validateSpell b false = [] →
      ((createSpellRecord b newId now).id = newId ∧
       (createSpellRecord b newId now).createdAt = now ∧
       (createSpellRecord b newId now).updatedAt = now ∧
       (createSpellRecord b newId now).createdAt = (createSpellRecord b newId now).updatedAt ∧
       postSpellsRoute b newId now = .ok (createSpellRecord b newId now) ∧
       (b.element = none → (createSpellRecord b newId now).element = "Arcane") ∧
       (b.rarity = none → (createSpellRecord b newId now).rarity = "Common") ∧
       (b.manaCost = none → (createSpellRecord b newId now).manaCost = 0) ∧
       (b.cooldownSec = none → (createSpellRecord b newId now).cooldownSec = 0) ∧
       (b.description = none → (createSpellRecord b newId now).description = "") ∧
       (b.ingredients = none → (createSpellRecord b newId now).ingredients = []))) := by
  constructor
  · rw [validateSpell]
    simp only [Bool.not_false, Bool.true_or, if_true, List.append_eq_nil]
    rw [checkOpt_eq_nil_iff, checkOpt_eq_nil_iff, checkOpt_eq_nil_iff, checkOpt_eq_nil_iff,
      checkOpt_eq_nil_iff, checkIngredients_eq_nil_iff]
    constructor
    · rintro ⟨⟨⟨⟨⟨⟨h1, h2⟩, h3⟩, h4⟩, h5⟩, h6⟩, h7⟩
      have hn : nameInvalid b.name = false := by
        by_contra hc
        rw [Bool.not_eq_false] at hc
        rw [if_pos hc] at h1
        exact List.cons_ne_nil _ _ h1
      exact ⟨(nameInvalid_eq_false_iff b.name).mp hn, h2, h3, h4, h5, h6, h7⟩
    · rintro ⟨h1, h2, h3, h4, h5, h6, h7⟩
      have hn : nameInvalid b.name = false := (nameInvalid_eq_false_iff b.name).mpr h1
      refine ⟨⟨⟨⟨⟨⟨?_, h2⟩, h3⟩, h4⟩, h5⟩, h6⟩, h7⟩
      rw [hn]
      simp
  · intro hval
    refine ⟨rfl, rfl, rfl, rfl, ?_, ?_, ?_, ?_, ?_, ?_, ?_⟩
    · simp [postSpellsRoute, hval]
    · intro h
      simp [createSpellRecord, jsOr, h, asStr]
    · intro h
      simp [createSpellRecord, jsOr, h, asStr]
    · intro h
      simp [createSpellRecord, jsOr, h, asNum]
    · intro h
      simp [createSpellRecord, jsOr, h, asNum]
    · intro h
      simp [createSpellRecord, jsOr, h, asStr]
    · intro h
      simp [createSpellRecord, jsOr, h, asStrList]

/-- The body of the Frost Bolt creation scenario. -/
def frostBoltBody : SpellBody :=
  { SpellBody.empty with name := some (.str "Frost Bolt"), element := some (.str "Frost") }

theorem claim_C5_witness :
    (createSpellRecord frostBoltBody "id-1" 10).manaCost = 0 ∧
    (createSpellRecord frostBoltBody "id-1" 10).cooldownSec = 0 ∧
    (createSpellRecord frostBoltBody "id-1" 10).createdAt =
      (createSpellRecord frostBoltBody "id-1" 10).updatedAt ∧
    (createSpellRecord frostBoltBody "id-1" 10).id = "id-1" ∧
    (createSpellRecord frostBoltBody "id-1" 10).element = "Frost" ∧
    postSpellsRoute frostBoltBody "id-1" 10 = .ok (createSpellRecord frostBoltBody "id-1" 10) := by
  have h := (claim_C5_create_spec frostBoltBody "id-1" 10).2 (by decide)
  refine ⟨h.2.2.2.2.2.2.2.1 rfl, h.2.2.2.2.2.2.2.2.1 rfl, h.2.2.2.1, h.1,
    by decide, h.2.2.2.2.1⟩

/-! ### Claim C7: the derived filtered/sorted view -/

theorem getFilteredSpells_eq (lc : String → String → Int) (st : ClientState) :
    getFilteredSpells lc st =
      (if jsTrim st.searchQuery != "" then
         st.spells.filter (fun sp => matchesQuery (jsToLower st.searchQuery) sp)
       else st.spells).mergeSort (spellNameLe lc st.sortOrder) := rfl

/-- A trivial locale comparison used to instantiate the abstract
`localeCompare` in concrete computations. -/
def lc0 : String → String → Int := fun _ _ => 0

/-- A state with a whitespace-only search query over one loaded record
that contains no space in its name, description or element. -/
def blankQueryState : ClientState :=
  { initialClientState with spells := [demoSpell], searchQuery := " " }

/-- Counterexample to C7 as stated: the search query is the non-empty
string of one space, no loaded record contains it in name, description
or element, so the claimed result is the empty subset — but the code
only gates filtering on the trimmed query and returns every loaded
record. -/
theorem claim_C7_counterexample :
    getFilteredSpells lc0 blankQueryState = [demoSpell] ∧
    blankQueryState.searchQuery ≠ "" ∧
    blankQueryState.spells.filter
      (fun sp => matchesQuery (jsToLower blankQueryState.searchQuery) sp) = [] := by
  refine ⟨?_, by decide, by decide⟩
  rw [getFilteredSpells_eq]
  rw [show (if jsTrim blankQueryState.searchQuery != "" then
        blankQueryState.spells.filter
          (fun sp => matchesQuery (jsToLower blankQueryState.searchQuery) sp)
      else blankQueryState.spells) = [demoSpell] from by decide]
  simp

/-- Claim C7 (amended): with an empty or whitespace-only search query
the view returns all loaded records; with a query that is non-blank
after trimming it returns exactly the records whose lowercased name,
description or element contains the lowercased (untrimmed) query; in
both cases the result is a permutation sorted by name under the
locale comparison in the direction of `sortOrder` (and the stored list
itself is never modified — the view is a pure function of the state).
The hypotheses say that the locale comparison is antisymmetric in sign
and transitive, as a collation is. -/
theorem claim_C7_filter_sort_spec (lc : String → String → Int) (st : ClientState)
    (hflip : ∀ a b, lc b a = -(lc a b))
    (htrans : ∀ a b c, lc a b ≤ 0 → lc b c ≤ 0 → lc a c ≤ 0) :
    (jsTrim st.searchQuery = "" → (getFilteredSpells lc st).Perm st.spells) ∧
    (jsTrim st.searchQuery ≠ "" →
      (getFilteredSpells lc st).Perm
        (st.spells.filter (fun sp => matchesQuery (jsToLower st.searchQuery) sp))) ∧
    (getFilteredSpells lc st).Pairwise (fun a b => spellNameLe lc st.sortOrder a b = true) := by
  have htransS : ∀ a b c : Spell,
      spellNameLe lc st.sortOrder a b → spellNameLe lc st.sortOrder b c →
        spellNameLe lc st.sortOrder a c := by
    intro a b c
    cases st.sortOrder with
    | asc =>
        simp only [spellNameLe, decide_eq_true_eq]
        exact htrans a.name b.name c.name
    | desc =>
        simp only [spellNameLe, decide_eq_true_eq]
        intro h1 h2
        have h3 : lc c.name b.name ≤ 0 := by
          rw [hflip b.name c.name]
          omega
        have h4 : lc b.name a.name ≤ 0 := by
          rw [hflip a.name b.name]
          omega
        have h5 := htrans c.name b.name a.name h3 h4
        rw [hflip a.name c.name] at h5
        omega
  have htotS : ∀ a b : Spell,
      spellNameLe lc st.sortOrder a b || spellNameLe lc st.sortOrder b a := by
    intro a b
    cases st.sortOrder with
    | asc =>
        simp only [spellNameLe, Bool.or_eq_true, decide_eq_true_eq]
        have := hflip a.name b.name
        omega
    | desc =>
        simp only [spellNameLe, Bool.or_eq_true, decide_eq_true_eq]
        have := hflip a.name b.name
        omega
  refine ⟨?_, ?_, ?_⟩
  · intro h
    rw [getFilteredSpells_eq]
    rw [if_neg (by simp [h])]
    exact List.mergeSort_perm st.spells (spellNameLe lc st.sortOrder)
  · intro h
    rw [getFilteredSpells_eq]
    rw [if_pos (by simp [h])]
    exact List.mergeSort_perm _ (spellNameLe lc st.sortOrder)
  · rw [getFilteredSpells_eq]
    exact (List.sorted_mergeSort htransS htotS _).imp (fun hx => hx)

/-- A state with two loaded records and no search query. -/
def twoSpellState : ClientState :=
  { initialClientState with
    spells := [demoSpell, { demoSpell with id := "c", name := "Arc" }] }

theorem claim_C7_witness :
    (getFilteredSpells lc0 twoSpellState).Perm twoSpellState.spells ∧
    (getFilteredSpells lc0 twoSpellState).Pairwise
      (fun a b => spellNameLe lc0 twoSpellState.sortOrder a b = true) := by
  have h := claim_C7_filter_sort_spec lc0 twoSpellState
    (by intro a b; simp [lc0]) (by intro a b c h1 h2; simp [lc0])
  exact ⟨h.1 (by decide), h.2.2⟩

/-! ### Claim C8: GET /spells query handling -/

/-- Counterexample to C8 as stated: the query string "0" is numeric,
so per the claim the limit should be clamped into 1..50 and the request
should succeed — but the route rejects it with 400. -/
theorem claim_C8_counterexample :
    jsParseIntDec "0" = some 0 ∧
    getSpellsRoute (some "0") none [] = .error (400, "limit must be at least 1") := by
  refine ⟨by decide, by decide⟩

/-- Claim C8 (amended): limit defaults to 20 and is capped above at 50,
offset defaults to 0 and negative offsets are floored to 0; the request
fails with 400 exactly when limit or offset is non-numeric or when the
capped limit is below 1; on success the response echoes the effective
limit (in 1..50) and offset (at least 0) alongside items and the full
total. -/
theorem claim_C8_query_spec (limitQ offsetQ : Option String) (spells : List Spell) :
    (jsParseIntDec (limitQ.getD "20") = none →
      getSpellsRoute limitQ offsetQ spells = .error (400, "limit must be a number")) ∧
    (∀ l, jsParseIntDec (limitQ.getD "20") = some l →
      jsParseIntDec (offsetQ.getD "0") = none →
      getSpellsRoute limitQ offsetQ spells = .error (400, "offset must be a number")) ∧
    (∀ l o, jsParseIntDec (limitQ.getD "20") = some l →
      jsParseIntDec (offsetQ.getD "0") = some o →
      min l 50 < 1 →
      getSpellsRoute limitQ offsetQ spells = .error (400, "limit must be at least 1")) ∧
    (∀ l o, jsParseIntDec (limitQ.getD "20") = some l →
      jsParseIntDec (offsetQ.getD "0") = some o →
      1 ≤ min l 50 →
      ∃ resp, getSpellsRoute limitQ offsetQ spells = .ok resp ∧
        resp.limit = min l 50 ∧ resp.offset = max o 0 ∧
        1 ≤ resp.limit ∧ resp.limit ≤ 50 ∧ 0 ≤ resp.offset ∧
        resp.total = spells.length ∧
        resp.items = (getSpellsPaginated (min l 50).toNat (max o 0).toNat spells).items) ∧
    (limitQ = none → jsParseIntDec (limitQ.getD "20") = some 20) ∧
    (offsetQ = none → jsParseIntDec (offsetQ.getD "0") = some 0) := by
  refine ⟨?_, ?_, ?_, ?_, ?_, ?_⟩
  · intro h
    simp [getSpellsRoute, h]
  · intro l hl ho
    simp [getSpellsRoute, hl, ho]
  · intro l o hl ho hlt
    rw [getSpellsRoute, hl, ho]
    simp only [if_pos hlt]
  · intro l o hl ho hge
    have hroute :
        getSpellsRoute limitQ offsetQ spells =
          .ok { items := (getSpellsPaginated (min l 50).toNat (max o 0).toNat spells).items
                limit := min l 50
                offset := max o 0
                total := (getSpellsPaginated (min l 50).toNat (max o 0).toNat spells).total } := by
      simp only [getSpellsRoute, hl, ho]
      rw [if_neg (by omega)]
    refine ⟨_, hroute, rfl, rfl, hge, min_le_right l 50, le_max_right o 0, ?_, rfl⟩
    exact getSpellsPaginated_total spells (min l 50).toNat (max o 0).toNat
  · intro h
    rw [h]
    decide
  · intro h
    rw [h]
    decide

theorem claim_C8_witness :
    ∃ resp, getSpellsRoute (some "999") (some "-10") [] = .ok resp ∧
      resp.limit = 50 ∧ resp.offset = 0 := by
  obtain ⟨resp, hroute, hlim, hoff, _⟩ :=
    (claim_C8_query_spec (some "999") (some "-10") []).2.2.2.1 999 (-10)
      (by decide) (by decide) (by decide)
  exact ⟨resp, hroute, by rw [hlim]; decide, by rw [hoff]; decide⟩

/-! ### Claim C9: loading flags and failure atomicity in the orchestrator -/

/-- Claim C9: when an operation is not already in flight, its loading
flag is false again once it finishes, whatever the network outcome; and
a save (create or update) whose API call fails leaves the spells list,
total, offset and selection exactly as before. -/
theorem claim_C9_orchestrator_spec (st : ClientState) (offset : Nat)
    (formName id msg : String) (confirmed : Bool)
    (rl : Except String (List Spell × Nat)) (r1 : Except String Spell)
    (rs : Except String Spell) (ro : Except String (List Spell × Nat))
    (rd : Except String JsVal) :
    (st.loading.list = false → (loadSpellsRun st offset rl).loading.list = false) ∧
    (st.loading.spell = false → (loadSpellRun st r1).loading.spell = false) ∧
    (st.loading.save = false → (saveSpellRun st formName rs ro).loading.save = false) ∧
    (st.loading.delete = false →
      (deleteSpellRun st confirmed id rd).loading.delete = false) ∧
    ((saveSpellRun st formName (.error msg) ro).spells = st.spells ∧
     (saveSpellRun st formName (.error msg) ro).total = st.total ∧
     (saveSpellRun st formName (.error msg) ro).offset = st.offset ∧
     (saveSpellRun st formName (.error msg) ro).selectedSpell = st.selectedSpell) := by
  refine ⟨?_, ?_, ?_, ?_, ?_⟩
  · intro h
    simp only [loadSpellsRun, h, Bool.false_eq_true, if_false]
    rfl
  · intro h
    simp only [loadSpellRun, h, Bool.false_eq_true, if_false]
    rfl
  · intro h
    rcases hsel : st.selectedSpell with _ | sel
    · simp [saveSpellRun, hsel, h]
    · simp only [saveSpellRun, hsel, h, Bool.false_eq_true, if_false]
      rfl
  · intro h
    cases confirmed with
    | false => simp [deleteSpellRun, h]
    | true =>
        simp only [deleteSpellRun, h, Bool.false_eq_true, if_false, Bool.not_true]
        rfl
  · rcases hsel : st.selectedSpell with _ | sel
    · simp [saveSpellRun, hsel]
    · by_cases hl : st.loading.save
      · simp [saveSpellRun, hsel, hl]
      · by_cases hn : jsTrim formName == ""
        · simp [saveSpellRun, hsel, hl, hn, setLoading, setError, clearError]
        · simp [saveSpellRun, hsel, hl, hn, setLoading, setError, clearError]

theorem claim_C9_witness :
    (loadSpellsRun initialClientState 0 (.error "boom")).loading.list = false ∧
    (saveSpellRun { initialClientState with selectedSpell := some demoSpell }
      "Zap" (.error "boom") (.error "x")).loading.save = false ∧
    (saveSpellRun { initialClientState with selectedSpell := some demoSpell }
      "Zap" (.error "boom") (.error "x")).spells = [] := by
  have h1 := claim_C9_orchestrator_spec initialClientState 0 "Zap" "a" "boom" true
    (.error "boom") (.error "boom") (.error "boom") (.error "x") (.error "boom")
  have h2 := claim_C9_orchestrator_spec
    { initialClientState with selectedSpell := some demoSpell } 0 "Zap" "a" "boom" true
    (.error "boom") (.error "boom") (.error "boom") (.error "x") (.error "boom")
  exact ⟨h1.1 rfl, h2.2.2.1 rfl, h2.2.2.2.2.1⟩

/-! ### Claim C10: the client delete rejects on the 204 empty-body reply -/

/-- Claim C10: the hosted-backend DELETE route answers success with 204
and an empty body; on any response with a success status and an empty
body, the client deleteSpell rejects (its unconditional
`response.json()` fails on the empty body) instead of resolving. -/
theorem claim_C10_delete_client_rejects (sp : Spell) (resp : HttpResponse)
    (hok : resp.isOk = true) (hbody : resp.body = "") :
    (appDeleteSpellRoute (some sp)).status = 204 ∧
    (appDeleteSpellRoute (some sp)).body = "" ∧
    (appDeleteSpellRoute (some sp)).isOk = true ∧
    deleteSpellClient resp = .error "Unexpected end of JSON input" := by
  refine ⟨rfl, rfl, rfl, ?_⟩
  rw [deleteSpellClient, hok, hbody]
  rfl

theorem claim_C10_witness :
    deleteSpellClient { status := 204, body := "" } = .error "Unexpected end of JSON input" :=
  (claim_C10_delete_client_rejects demoSpell { status := 204, body := "" } rfl rfl).2.2.2

end Spellbook
